import Mathlib

/-
Verification of the GPU allocation optimizer
(`autoscaler/optimizer/gpu_optimizer.py`, `opt_types.py`).

The MILP built by `GPUOptimizer.get_optimal_gpu_allocation` is shallowly
embedded: Python dicts become association lists (`List (key × value)`, first
occurrence wins on lookup, matching unique-key Python dicts), floats become
`ℚ`, and the abstract solver of `abstract_optimization_model.py` is modelled
by a `Solution` record of variable values together with the `Feasible`
predicate (all constraints added to the model hold, integer variables carry
integer values with the default lower bound 0) and `IsOptimal` (feasible and
objective-minimal).  The one fallible step of the encoder — the
`deployed_instances.get` call on a possibly-`None` argument at the
`min_instances_ct` comprehension — is modelled in the `Except` monad.
-/

namespace Autoscaler

/-- Lookup in an association list modelling a Python dict: first matching key. -/
def dlookup {κ α : Type} [DecidableEq κ] : List (κ × α) → κ → Option α
  | [], _ => none
  | p :: rest, k => if p.1 = k then some p.2 else dlookup rest k

/-- Python `d.get(k, dflt)`. -/
def dget {κ α : Type} [DecidableEq κ] (d : List (κ × α)) (k : κ) (dflt : α) : α :=
  (dlookup d k).getD dflt

/-- VariantData named tuple from `opt_types.py`. -/
structure VariantData where
  variant_id : String
  gpu_type : String
  gpu_number : ℚ
  role : String
  slo_class : String
  max_service_rate : ℚ
  max_concurrency : ℚ
deriving DecidableEq

/-- InstancesData named tuple from `opt_types.py`. -/
structure InstancesData where
  instance_num : ℤ
  gpu_type : String
  gpu_number : ℚ
deriving DecidableEq

/-- OptimizationResultsInstances named tuple from `opt_types.py`. -/
structure OptimizationResultsInstances where
  requiredInstances : List (String × InstancesData)
deriving DecidableEq

/-- OptimizationResult named tuple from `opt_types.py`. -/
structure OptimizationResult where
  gpu_after_allocation : List (String × ℤ)
  models_data : List (String × OptimizationResultsInstances)
  impossible_models : List String
  strange_models : List String
  missing_models : List String
  impossible_instances : List (String × List String)
deriving DecidableEq

/-- The arguments of `GPUOptimizer.get_optimal_gpu_allocation`. -/
structure OptInput where
  variants : List (String × List (String × VariantData))
  required_rates : List (String × ℚ)
  gpu_limits : List (String × ℤ)
  gpu_cost : List (String × ℚ)
  scale_to_zero : List String
  deployed_instances : Option (List (String × List (String × ℤ)))
  change_penalty : ℚ
  homogeneous : Bool
  max_replicas : List (String × List (String × Option ℤ))
  min_replicas : List (String × List (String × ℤ))

/-- Values returned by the abstract solver for the declared decision
variables (`eta`, `used_gpu`, `delta`). -/
structure Solution where
  eta : String × String → ℚ
  used_gpu : String → ℚ
  delta : String × String → ℚ

/-- Keys of the integer variables `eta`: every (model, setup) pair of the
variants catalog (lines 76-83 of `gpu_optimizer.py`). -/
def etaKeys (inp : OptInput) : List (String × String) :=
  inp.variants.flatMap (fun p => p.2.map (fun q => (p.1, q.1)))

/-- `max_replicas_ct` (lines 85-89): `eta[m, v] ≤ replicas` for every entry
of `max_replicas` whose value is not `None`. -/
def maxReplicaCts (inp : OptInput) : List ((String × String) × ℤ) :=
  inp.max_replicas.flatMap
    (fun p => p.2.filterMap (fun q => q.2.map (fun r => ((p.1, q.1), r))))

/-- `min_replicas_ct` (lines 91-95): `eta[m, v] ≥ replicas` for every entry
of `min_replicas` whose value is truthy (non-zero). -/
def minReplicaCts (inp : OptInput) : List ((String × String) × ℤ) :=
  inp.min_replicas.flatMap
    (fun p => (p.2.filter (fun q => q.2 != 0)).map (fun q => ((p.1, q.1), q.2)))

/-- SOS1 groups (lines 97-103): when `homogeneous`, one group of the `eta`
variables of `variants[model_id]` per `model_id` in `required_rates`. -/
def sos1Groups (inp : OptInput) : List (List (String × String)) :=
  if inp.homogeneous then
    inp.required_rates.map
      (fun p => (dget inp.variants p.1 []).map (fun q => (p.1, q.1)))
  else []

/-- Python `sum(deployed_instances.get(model_id, dict(a 0)).values())`:
total currently deployed replicas of a model, 0 when absent. -/
def currentTotal (d : List (String × List (String × ℤ))) (m : String) : ℤ :=
  ((dget d m [("a", 0)]).map Prod.snd).sum

/-- `min_instances_ct` (lines 107-113).  For each model of the catalog that
is not in `scale_to_zero`, the code evaluates
`sum(deployed_instances.get(model_id, dict(a 0)).values()) > 0`; when
`deployed_instances` is `None` this raises `AttributeError`, modelled here
as `Except.error`.  On success, the result lists each forced model together
with its variant ids (the `eta` variables summed in the constraint). -/
def minInstanceModelsE (inp : OptInput) :
    Except String (List (String × List String)) :=
  inp.variants.foldr
    (fun p acc =>
      if p.1 ∈ inp.scale_to_zero then acc
      else
        match inp.deployed_instances with
        | none => Except.error "AttributeError: NoneType object has no attribute get"
        | some d =>
          if 0 < currentTotal d p.1 then
            acc.map (fun rest => (p.1, p.2.map Prod.fst) :: rest)
          else acc)
    (Except.ok [])

/-- The min-instances constraint list actually used for satisfaction:
empty when the encoder raised. -/
def minOneList (inp : OptInput) : List (String × List String) :=
  ((minInstanceModelsE inp).toOption).getD []

/-- `service_rate_ct` (lines 116-129): one constraint
`rate ≤ Σ_v max_service_rate · eta[m, v]` per entry of `required_rates`,
kept as (rate, coefficient·variable list). -/
def serviceCts (inp : OptInput) : List (ℚ × List (ℚ × (String × String))) :=
  inp.required_rates.map
    (fun p =>
      (p.2, (dget inp.variants p.1 []).map
        (fun q => (q.2.max_service_rate, (p.1, q.1)))))

/-- Value of a linear combination of `eta` variables. -/
def lsum (sol : Solution) (terms : List (ℚ × (String × String))) : ℚ :=
  (terms.map (fun t => t.1 * sol.eta t.2)).sum

/-- The `(model_id, setup_id, gpu_number)` triples of one gpu type
(inner comprehension of `setups_per_gpu`, lines 131-139). -/
def eligSetups (inp : OptInput) (t : String) : List (String × String × ℚ) :=
  inp.variants.flatMap
    (fun p => (p.2.filter (fun q => q.2.gpu_type == t)).map
      (fun q => (p.1, q.1, q.2.gpu_number)))

/-- `setups_per_gpu` (lines 131-142): one entry per `gpu_limits` key, then
entries with an empty setup list removed. -/
def setups_per_gpu (inp : OptInput) : List (String × List (String × String × ℚ)) :=
  (inp.gpu_limits.map (fun p => (p.1, eligSetups inp p.1))).filter
    (fun p => !p.2.isEmpty)

/-- `max_gpu_cost` (lines 144-147): max of `gpu_cost.get(t, 0)` over the
types with eligible setups, 0 when there are none. -/
def max_gpu_cost (inp : OptInput) : ℚ :=
  (((setups_per_gpu inp).map (fun p => dget inp.gpu_cost p.1 0)).max?).getD 0

/-- Accelerator consumption `Σ gpu_number · eta[m, v]` of one setup group. -/
def consump (sol : Solution) (gs : List (String × String × ℚ)) : ℚ :=
  (gs.map (fun s => s.2.2 * sol.eta (s.1, s.2.1))).sum

/-- Keys of the continuous `delta` variables (lines 163-170): every variant
of every model that is a key of `deployed_instances`. -/
def deltaKeys (inp : OptInput) : List (String × String) :=
  match inp.deployed_instances with
  | some dep => dep.flatMap (fun p => (dget inp.variants p.1 []).map (fun q => (p.1, q.1)))
  | none => []

/-- Python `variants[m][v].max_service_rate` (total, with default 0 where the
source would raise KeyError). -/
def msr (inp : OptInput) (m v : String) : ℚ :=
  ((dlookup (dget inp.variants m []) v).map (fun vd => vd.max_service_rate)).getD 0

/-- `delta_rates[m]` (lines 173-182):
`Σ_v current[m][v] · max_service_rate(m, v) − required_rates.get(m, 0)`. -/
def deltaRate (inp : OptInput) (m : String) (inst : List (String × ℤ)) : ℚ :=
  ((inst.map (fun q => (q.2 : ℚ) * msr inp m q.1)).sum) - dget inp.required_rates m 0

/-- One `instance_change_ct` constraint (lines 184-193):
`growth m v cur` stands for `delta[m, v] ≥ eta[m, v] − cur`,
`shrink m v cur` stands for `delta[m, v] ≥ cur − eta[m, v]`. -/
inductive ChangeCt where
  | growth (m v : String) (cur : ℤ)
  | shrink (m v : String) (cur : ℤ)
deriving DecidableEq

/-- Satisfaction of one `instance_change_ct` constraint. -/
def ChangeCt.holds (sol : Solution) : ChangeCt → Prop
  | growth m v cur => sol.eta (m, v) - (cur : ℚ) ≤ sol.delta (m, v)
  | shrink m v cur => (cur : ℚ) - sol.eta (m, v) ≤ sol.delta (m, v)

instance (sol : Solution) (c : ChangeCt) : Decidable (c.holds sol) :=
  match c with
  | .growth _ _ _ => inferInstanceAs (Decidable (_ ≤ _))
  | .shrink _ _ _ => inferInstanceAs (Decidable (_ ≤ _))

/-- `instance_change_ct` (lines 161-193): built only when
`change_penalty > 0`, one constraint per (variant, count) entry of
`deployed_instances`, direction chosen by the sign of `delta_rates[m]`. -/
def changeCts (inp : OptInput) : List ChangeCt :=
  match inp.deployed_instances with
  | some dep =>
    if 0 < inp.change_penalty then
      dep.flatMap
        (fun p => p.2.map
          (fun q =>
            if 0 ≤ deltaRate inp p.1 p.2 then ChangeCt.growth p.1 q.1 q.2
            else ChangeCt.shrink p.1 q.1 q.2))
    else []
  | none => []

/-- `self.mdl.sum(delta)` in the objective (line 213): the sum of all
`delta` variables when `change_penalty > 0`, the scalar 0 otherwise
(line 195 sets `delta = 0`). -/
def sumDelta (inp : OptInput) (sol : Solution) : ℚ :=
  if 0 < inp.change_penalty then ((deltaKeys inp).map sol.delta).sum else 0

/-- The objective set by `self.mdl.minimize` (lines 209-214). -/
def objective (inp : OptInput) (sol : Solution) : ℚ :=
  ((setups_per_gpu inp).map (fun p => dget inp.gpu_cost p.1 0 * sol.used_gpu p.1)).sum
    + inp.change_penalty * sumDelta inp sol * max_gpu_cost inp

/-- Solver contract for a returned solution: every constraint added to the
model holds, integer variables (`eta`, `used_gpu`) carry integer values, and
every variable respects its default lower bound 0. -/
@[mk_iff]
structure Feasible (inp : OptInput) (sol : Solution) : Prop where
  eta_nonneg : ∀ k ∈ etaKeys inp, 0 ≤ sol.eta k
  eta_integral : ∀ k ∈ etaKeys inp, (sol.eta k).den = 1
  used_nonneg : ∀ p ∈ setups_per_gpu inp, 0 ≤ sol.used_gpu p.1
  used_integral : ∀ p ∈ setups_per_gpu inp, (sol.used_gpu p.1).den = 1
  delta_nonneg : 0 < inp.change_penalty → ∀ k ∈ deltaKeys inp, 0 ≤ sol.delta k
  max_replicas_sat : ∀ c ∈ maxReplicaCts inp, sol.eta c.1 ≤ (c.2 : ℚ)
  min_replicas_sat : ∀ c ∈ minReplicaCts inp, (c.2 : ℚ) ≤ sol.eta c.1
  sos1_sat : ∀ g ∈ sos1Groups inp, ∀ k ∈ g, ∀ k' ∈ g,
    sol.eta k ≠ 0 → sol.eta k' ≠ 0 → k = k'
  min_instances_sat : ∀ p ∈ minOneList inp,
    1 ≤ ((p.2.map (fun v => sol.eta (p.1, v))).sum)
  service_rate_sat : ∀ c ∈ serviceCts inp, c.1 ≤ lsum sol c.2
  gpu_limit_sat : ∀ p ∈ setups_per_gpu inp,
    consump sol p.2 ≤ ((dget inp.gpu_limits p.1 0 : ℤ) : ℚ)
  instance_change_sat : ∀ c ∈ changeCts inp, c.holds sol
  int_gpu_sat : ∀ p ∈ setups_per_gpu inp, consump sol p.2 ≤ sol.used_gpu p.1

instance (inp : OptInput) (sol : Solution) : Decidable (Feasible inp sol) :=
  decidable_of_iff _ (feasible_iff inp sol).symm

/-- A solution an exact MILP backend may return: feasible and
objective-minimal among feasible solutions. -/
def IsOptimal (inp : OptInput) (sol : Solution) : Prop :=
  Feasible inp sol ∧ ∀ sol', Feasible inp sol' → objective inp sol ≤ objective inp sol'

/-- `instances_per_model` (lines 225-233):
`InstancesData(round(instances[(m, v)]), gpu_type, gpu_number)` for every
catalog pair. -/
def instancesPerModel (inp : OptInput) (sol : Solution) :
    List (String × OptimizationResultsInstances) :=
  inp.variants.map
    (fun p =>
      (p.1, OptimizationResultsInstances.mk
        (p.2.map (fun q =>
          (q.1, InstancesData.mk (round (sol.eta (p.1, q.1)))
            q.2.gpu_type q.2.gpu_number)))))

/-- `gpu_after_allocation` (lines 235 and 243-244):
`round(gpu_limits[t] − used_gpu[t])` per type with eligible setups, and the
whole rounded `gpu_limits` when `setups_per_gpu` is empty. -/
def gpuAfter (inp : OptInput) (sol : Solution) : List (String × ℤ) :=
  if (setups_per_gpu inp).isEmpty then
    inp.gpu_limits.map (fun p => (p.1, round ((p.2 : ℚ))))
  else
    (setups_per_gpu inp).map
      (fun p => (p.1, round (((dget inp.gpu_limits p.1 0 : ℤ) : ℚ) - sol.used_gpu p.1)))

/-- The record built on the solved branch (lines 246-253). -/
def assembleSolved (inp : OptInput) (sol : Solution) : OptimizationResult :=
  { gpu_after_allocation := gpuAfter inp sol
    models_data := instancesPerModel inp sol
    impossible_models := []
    strange_models := []
    missing_models := []
    impossible_instances := [] }

/-- The record built on the no-solution branch (lines 256-263). -/
def emptyResult : OptimizationResult :=
  { gpu_after_allocation := []
    models_data := []
    impossible_models := []
    strange_models := []
    missing_models := []
    impossible_instances := [] }

/-- `get_optimal_gpu_allocation`, parameterized by the solver outcome
(`some sol` when `solve()` returned a solution, `none` otherwise).  The two
places the encoder can raise `AttributeError` on `deployed_instances = None`
(line 111 and line 166, the latter only when `change_penalty > 0`) are
checked in source order before the solver outcome is consulted. -/
def get_optimal_gpu_allocation (inp : OptInput) (solved : Option Solution) :
    Except String OptimizationResult := do
  let _ ← minInstanceModelsE inp
  let _ ← (if 0 < inp.change_penalty then
      match inp.deployed_instances with
      | none => Except.error "AttributeError: NoneType object has no attribute keys"
      | some _ => Except.ok ()
    else Except.ok ())
  match solved with
  | some sol => Except.ok (assembleSolved inp sol)
  | none => Except.ok emptyResult

/-- Replica count recorded in the result for one (model, variant) pair,
0 when the pair is absent. -/
def resultReplicas (res : OptimizationResult) (m v : String) : ℤ :=
  (((dlookup res.models_data m).bind
    (fun ri => dlookup ri.requiredInstances v)).map
      (fun d => d.instance_num)).getD 0

/-- Accelerator consumption of a setup group computed from the rounded
replica counts of the result. -/
def resultConsump (sol : Solution) (gs : List (String × String × ℚ)) : ℚ :=
  (gs.map (fun s => s.2.2 * ((round (sol.eta (s.1, s.2.1)) : ℤ) : ℚ))).sum

/-- Modelled from the spec: the accelerator types that "have at least one
eligible variant", read directly off the input (an entry of Supply whose
type is the `accelerator_type` of some catalog variant). -/
def specEligible (inp : OptInput) : List (String × ℤ) :=
  inp.gpu_limits.filter
    (fun p => inp.variants.any (fun q => q.2.any (fun r => r.2.gpu_type == p.1)))

/-- Modelled from the spec: `max gpu cost = max of cost[t] over eligible t`
(a type absent from the cost map contributing 0), and 0 when no type has
eligible variants. -/
def specMaxGpuCost (inp : OptInput) : ℚ :=
  (((specEligible inp).map (fun p => dget inp.gpu_cost p.1 0)).max?).getD 0

/-- Modelled from the spec:
`Σ_t cost[t] · used_gpu[t] + change_penalty · max_gpu_cost · Σ delta[m, v]`
with the first sum over the eligible accelerator types and the last over
the declared `delta` variables. -/
def specObjective (inp : OptInput) (sol : Solution) : ℚ :=
  ((specEligible inp).map (fun p => dget inp.gpu_cost p.1 0 * sol.used_gpu p.1)).sum
    + inp.change_penalty * specMaxGpuCost inp * ((deltaKeys inp).map sol.delta).sum

/-- Replace the `used_gpu` value of one accelerator type (exchange argument
for objective minimality). -/
def setUsed (sol : Solution) (t : String) (x : ℚ) : Solution :=
  { sol with used_gpu := fun s => if s = t then x else sol.used_gpu s }

/-- A single catalog variant on accelerator type A, one accelerator per
replica, unit service rate. -/
def vdW : VariantData :=
  { variant_id := "v", gpu_type := "A", gpu_number := 1, role := "inference"
    slo_class := "standard", max_service_rate := 1, max_concurrency := 1 }

/-- Well-behaved input: one model, one variant, demand 1, supply 5 of A at
cost 1, one replica currently deployed, no penalty. -/
def inpW : OptInput :=
  { variants := [("m", [("v", vdW)])]
    required_rates := [("m", 1)]
    gpu_limits := [("A", 5)]
    gpu_cost := [("A", 1)]
    scale_to_zero := []
    deployed_instances := some [("m", [("v", 1)])]
    change_penalty := 0
    homogeneous := false
    max_replicas := []
    min_replicas := [] }

/-- The exact optimal solution for `inpW`: one replica, one accelerator. -/
def solW : Solution :=
  { eta := fun k => if k = ("m", "v") then 1 else 0
    used_gpu := fun t => if t = "A" then 1 else 0
    delta := fun _ => 0 }

/-- `inpW` with a positive change penalty (for the churn-penalty claim). -/
def inpP : OptInput :=
  { inpW with change_penalty := 1 }

/-- `inpW` with `deployed_instances` omitted (its default `None`). -/
def inp5 : OptInput :=
  { inpW with deployed_instances := none }

/-- Input whose Supply has a type B with no matching variant while type A
has one: demand 5 on the single A variant, no cost map entries. -/
def inp4 : OptInput :=
  { variants := [("m", [("v", { vdW with max_service_rate := 5 })])]
    required_rates := [("m", 5)]
    gpu_limits := [("A", 4), ("B", 2)]
    gpu_cost := []
    scale_to_zero := []
    deployed_instances := some []
    change_penalty := 0
    homogeneous := false
    max_replicas := []
    min_replicas := [] }

/-- Feasible and optimal for `inp4` (every feasible solution has objective
0 because the cost map is empty). -/
def sol4 : Solution :=
  { eta := fun k => if k = ("m", "v") then 1 else 0
    used_gpu := fun t => if t = "A" then 1 else 0
    delta := fun _ => 0 }

/-- Input with an empty cost map: `used_gpu` is not forced tight at the
optimum. -/
def inp6 : OptInput :=
  { variants := [("m", [("v", vdW)])]
    required_rates := [("m", 1)]
    gpu_limits := [("A", 5)]
    gpu_cost := []
    scale_to_zero := []
    deployed_instances := some []
    change_penalty := 0
    homogeneous := false
    max_replicas := []
    min_replicas := [] }

/-- Optimal for `inp6` (objective is identically 0) yet with
`used_gpu A = 7` far above the consumed 1 accelerator. -/
def sol6 : Solution :=
  { eta := fun k => if k = ("m", "v") then 1 else 0
    used_gpu := fun t => if t = "A" then 7 else 0
    delta := fun _ => 0 }

/-- Homogeneous input whose model `m2` is absent from `required_rates` but
is pinned by `min_replicas` to one replica on each of its two variants. -/
def inp7 : OptInput :=
  { variants := [("m2", [("v1", { vdW with variant_id := "v1" }),
                         ("v2", { vdW with variant_id := "v2" })])]
    required_rates := []
    gpu_limits := [("A", 10)]
    gpu_cost := []
    scale_to_zero := []
    deployed_instances := some []
    change_penalty := 0
    homogeneous := true
    max_replicas := []
    min_replicas := [("m2", [("v1", 1), ("v2", 1)])] }

/-- Optimal for `inp7` (objective identically 0): both variants of `m2`
active at one replica. -/
def sol7 : Solution :=
  { eta := fun k => if k = ("m2", "v1") ∨ k = ("m2", "v2") then 1 else 0
    used_gpu := fun t => if t = "A" then 2 else 0
    delta := fun _ => 0 }

/-- Homogeneous input with the model in `required_rates` (for the amended
homogeneity claim). -/
def inpH : OptInput :=
  { variants := [("m", [("v1", { vdW with variant_id := "v1" }),
                        ("v2", { vdW with variant_id := "v2" })])]
    required_rates := [("m", 1)]
    gpu_limits := [("A", 5)]
    gpu_cost := [("A", 1)]
    scale_to_zero := []
    deployed_instances := some []
    change_penalty := 0
    homogeneous := true
    max_replicas := []
    min_replicas := [] }

/-- Feasible for `inpH`: one replica on `v1` only. -/
def solH : Solution :=
  { eta := fun k => if k = ("m", "v1") then 1 else 0
    used_gpu := fun t => if t = "A" then 1 else 0
    delta := fun _ => 0 }

/-- Degenerate input: empty catalog, nonempty Supply. -/
def inpD : OptInput :=
  { variants := []
    required_rates := []
    gpu_limits := [("B", 2)]
    gpu_cost := []
    scale_to_zero := []
    deployed_instances := some []
    change_penalty := 0
    homogeneous := false
    max_replicas := []
    min_replicas := [] }

/-- The all-zero solution. -/
def solZero : Solution :=
  { eta := fun _ => 0, used_gpu := fun _ => 0, delta := fun _ => 0 }

theorem dlookup_mem {κ α : Type} [DecidableEq κ] {l : List (κ × α)} {k : κ} {v : α}
    (h : dlookup l k = some v) : (k, v) ∈ l := by
  induction l with
  | nil => simp [dlookup] at h
  | cons p rest ih =>
    obtain ⟨a, b⟩ := p
    by_cases ha : a = k
    · subst ha
      rw [dlookup, if_pos rfl] at h
      obtain rfl : b = v := Option.some.inj h
      exact List.mem_cons_self _ _
    · rw [dlookup, if_neg ha] at h
      exact List.mem_cons_of_mem _ (ih h)

theorem dlookup_map {κ α β : Type} [DecidableEq κ] (l : List (κ × α)) (f : κ → α → β)
    (k : κ) :
    dlookup (l.map (fun p => (p.1, f p.1 p.2))) k = (dlookup l k).map (f k) := by
  induction l with
  | nil => rfl
  | cons p rest ih =>
    obtain ⟨a, b⟩ := p
    by_cases ha : a = k
    · subst ha
      simp [dlookup]
    · simp [dlookup, ha, ih]

theorem dlookup_eq_none {κ α : Type} [DecidableEq κ] {l : List (κ × α)} {k : κ}
    (h : k ∉ l.map Prod.fst) : dlookup l k = none := by
  induction l with
  | nil => rfl
  | cons p rest ih =>
    simp only [List.map_cons, List.mem_cons] at h
    push_neg at h
    rw [dlookup, if_neg (fun he => h.1 he.symm)]
    exact ih h.2

theorem dget_of_dlookup {κ α : Type} [DecidableEq κ] {l : List (κ × α)} {k : κ} {v : α}
    (dflt : α) (h : dlookup l k = some v) : dget l k dflt = v := by
  rw [dget, h]
  rfl

theorem mem_etaKeys {inp : OptInput} {m : String} {s : List (String × VariantData)}
    {q : String × VariantData} (hs : (m, s) ∈ inp.variants) (hq : q ∈ s) :
    (m, q.1) ∈ etaKeys inp :=
  List.mem_flatMap.2 ⟨(m, s), hs, List.mem_map.2 ⟨q, hq, rfl⟩⟩

theorem round_cast_eq_self {q : ℚ} (h : q.den = 1) : ((round q : ℤ) : ℚ) = q := by
  have h2 : ((q.num : ℤ) : ℚ) = q := (Rat.den_eq_one_iff q).1 h
  calc ((round q : ℤ) : ℚ) = ((round ((q.num : ℤ) : ℚ) : ℤ) : ℚ) := by rw [h2]
    _ = ((q.num : ℤ) : ℚ) := by rw [round_intCast]
    _ = q := h2

theorem setups_per_gpu_mem {inp : OptInput} {t : String}
    {gs : List (String × String × ℚ)} (h : (t, gs) ∈ setups_per_gpu inp) :
    gs = eligSetups inp t ∧ gs ≠ [] ∧ t ∈ inp.gpu_limits.map Prod.fst := by
  unfold setups_per_gpu at h
  have h1 := List.mem_of_mem_filter h
  have h2 := List.of_mem_filter h
  rcases List.mem_map.1 h1 with ⟨p, hp, he⟩
  have ht : p.1 = t := congrArg Prod.fst he
  have hg : eligSetups inp p.1 = gs := congrArg Prod.snd he
  refine ⟨by rw [← hg, ht], ?_, ?_⟩
  · intro hnil
    rw [hnil] at h2
    simp at h2
  · rw [← ht]
    exact List.mem_map.2 ⟨p, hp, rfl⟩

theorem eligSetups_mem {inp : OptInput} {t : String} {x : String × String × ℚ}
    (h : x ∈ eligSetups inp t) :
    ∃ p ∈ inp.variants, ∃ q ∈ p.2, x = (p.1, q.1, q.2.gpu_number) ∧ q.2.gpu_type = t := by
  rcases List.mem_flatMap.1 h with ⟨p, hp, hx⟩
  rcases List.mem_map.1 hx with ⟨q, hq, rfl⟩
  have hqf := List.of_mem_filter hq
  have hqm := List.mem_of_mem_filter hq
  exact ⟨p, hp, q, hqm, rfl, by simpa using hqf⟩

theorem consump_nonneg {inp : OptInput} {sol : Solution} {t : String}
    {gs : List (String × String × ℚ)} (hgs : gs = eligSetups inp t)
    (hnn : ∀ p ∈ inp.variants, ∀ q ∈ p.2, 0 ≤ q.2.gpu_number)
    (heta : ∀ k ∈ etaKeys inp, 0 ≤ sol.eta k) : 0 ≤ consump sol gs := by
  subst hgs
  apply List.sum_nonneg
  intro x hx
  rcases List.mem_map.1 hx with ⟨s, hs, rfl⟩
  rcases eligSetups_mem hs with ⟨p, hp, q, hq, rfl, _⟩
  exact mul_nonneg (hnn p hp q hq) (heta (p.1, q.1) (mem_etaKeys hp hq))

theorem resultConsump_eq {inp : OptInput} {sol : Solution} {t : String}
    {gs : List (String × String × ℚ)} (hgs : gs = eligSetups inp t)
    (hint : ∀ k ∈ etaKeys inp, (sol.eta k).den = 1) :
    resultConsump sol gs = consump sol gs := by
  subst hgs
  unfold resultConsump consump
  congr 1
  apply List.map_congr_left
  intro s hs
  rcases eligSetups_mem hs with ⟨p, hp, q, hq, rfl, _⟩
  rw [round_cast_eq_self (hint (p.1, q.1) (mem_etaKeys hp hq))]

theorem minInstanceModelsE_some {inp : OptInput}
    {d : List (String × List (String × ℤ))} (hdep : inp.deployed_instances = some d) :
    minInstanceModelsE inp = Except.ok
      ((inp.variants.filter
        (fun p => decide (p.1 ∉ inp.scale_to_zero) && decide (0 < currentTotal d p.1))).map
        (fun p => (p.1, p.2.map Prod.fst))) := by
  unfold minInstanceModelsE
  rw [hdep]
  induction inp.variants with
  | nil => rfl
  | cons p rest ih =>
    rw [List.foldr_cons, ih, List.filter_cons]
    by_cases h1 : p.1 ∈ inp.scale_to_zero
    · simp [h1]
    · by_cases h2 : 0 < currentTotal d p.1
      · simp [h1, h2, Except.map]
      · simp [h1, h2]

theorem minOneList_some {inp : OptInput}
    {d : List (String × List (String × ℤ))} (hdep : inp.deployed_instances = some d) :
    minOneList inp =
      ((inp.variants.filter
        (fun p => decide (p.1 ∉ inp.scale_to_zero) && decide (0 < currentTotal d p.1))).map
        (fun p => (p.1, p.2.map Prod.fst))) := by
  rw [minOneList, minInstanceModelsE_some hdep]
  rfl

theorem minOneList_char {inp : OptInput}
    {d : List (String × List (String × ℤ))} (hdep : inp.deployed_instances = some d)
    {m : String} {vs : List String} :
    (m, vs) ∈ minOneList inp ↔
      ∃ s, (m, s) ∈ inp.variants ∧ vs = s.map Prod.fst ∧
        m ∉ inp.scale_to_zero ∧ 0 < currentTotal d m := by
  rw [minOneList_some hdep]
  constructor
  · intro h
    rcases List.mem_map.1 h with ⟨p, hp, he⟩
    have hm : p.1 = m := congrArg Prod.fst he
    have hv : p.2.map Prod.fst = vs := congrArg Prod.snd he
    have hcond := List.of_mem_filter hp
    rw [hm] at hcond
    simp only [Bool.and_eq_true, decide_eq_true_eq] at hcond
    refine ⟨p.2, ?_, hv.symm, hcond.1, hcond.2⟩
    rw [← hm]
    exact List.mem_of_mem_filter hp
  · rintro ⟨s, hs, rfl, h1, h2⟩
    refine List.mem_map.2 ⟨(m, s), List.mem_filter.2 ⟨hs, ?_⟩, rfl⟩
    simp only [Bool.and_eq_true, decide_eq_true_eq]
    exact ⟨h1, h2⟩

theorem get_optimal_ok {inp : OptInput} {sol : Solution} {res : OptimizationResult}
    (h : get_optimal_gpu_allocation inp (some sol) = Except.ok res) :
    res = assembleSolved inp sol := by
  unfold get_optimal_gpu_allocation at h
  cases he : minInstanceModelsE inp with
  | error e =>
    rw [he] at h
    exact absurd h (by simp [Bind.bind, Except.bind])
  | ok L =>
    rw [he] at h
    by_cases hcp : 0 < inp.change_penalty
    · cases hd : inp.deployed_instances with
      | none =>
        rw [if_pos hcp, hd] at h
        exact absurd h (by simp [Bind.bind, Except.bind])
      | some d =>
        rw [if_pos hcp, hd] at h
        simp [Bind.bind, Except.bind, pure, Except.pure] at h
        exact h.symm
    · rw [if_neg hcp] at h
      simp [Bind.bind, Except.bind, pure, Except.pure] at h
      exact h.symm

theorem eligSetups_eq_nil_iff (inp : OptInput) (t : String) :
    eligSetups inp t = [] ↔
      (inp.variants.any (fun q => q.2.any (fun r => r.2.gpu_type == t))) = false := by
  rw [eligSetups, List.flatMap_eq_nil_iff, List.any_eq_false]
  constructor
  · intro h p hp
    have h2 := h p hp
    rw [List.map_eq_nil_iff, List.filter_eq_nil_iff] at h2
    rw [List.any_eq_true]
    rintro ⟨r, hr, hrt⟩
    exact h2 r hr hrt
  · intro h p hp
    rw [List.map_eq_nil_iff, List.filter_eq_nil_iff]
    intro r hr hrt
    exact h p hp (List.any_eq_true.2 ⟨r, hr, hrt⟩)

theorem setups_per_gpu_eq (inp : OptInput) :
    setups_per_gpu inp = (specEligible inp).map (fun p => (p.1, eligSetups inp p.1)) := by
  rw [setups_per_gpu, specEligible, List.filter_map]
  refine congrArg (List.map _) (List.filter_congr ?_)
  intro p _
  show (!(eligSetups inp p.1).isEmpty) =
    inp.variants.any (fun q => q.2.any (fun r => r.2.gpu_type == p.1))
  cases ha : inp.variants.any (fun q => q.2.any (fun r => r.2.gpu_type == p.1)) with
  | false => rw [(eligSetups_eq_nil_iff inp p.1).2 ha]; rfl
  | true =>
    cases hgs : eligSetups inp p.1 with
    | nil =>
      rw [(eligSetups_eq_nil_iff inp p.1).1 hgs] at ha
      exact absurd ha (by simp)
    | cons a as => rfl

theorem feasible_setUsed {inp : OptInput} {sol : Solution} {t : String} {x : ℚ}
    (hf : Feasible inp sol) (hx0 : 0 ≤ x) (hxden : x.den = 1)
    (hxge : ∀ gs, (t, gs) ∈ setups_per_gpu inp → consump sol gs ≤ x) :
    Feasible inp (setUsed sol t x) := by
  obtain ⟨f1, f2, f3, f4, f5, f6, f7, f8, f9, f10, f11, f12, f13⟩ := hf
  refine ⟨f1, f2, ?_, ?_, f5, f6, f7, f8, f9, f10, f11, f12, ?_⟩
  · intro p hp
    obtain ⟨a, gs⟩ := p
    by_cases h : a = t
    · simp only [setUsed, h, if_pos rfl]
      exact hx0
    · simp only [setUsed, if_neg h]
      exact f3 (a, gs) hp
  · intro p hp
    obtain ⟨a, gs⟩ := p
    by_cases h : a = t
    · simp only [setUsed, h, if_pos rfl]
      exact hxden
    · simp only [setUsed, if_neg h]
      exact f4 (a, gs) hp
  · intro p hp
    obtain ⟨a, gs⟩ := p
    by_cases h : a = t
    · simp only [setUsed, h, if_pos rfl]
      subst h
      exact hxge gs hp
    · simp only [setUsed, if_neg h]
      exact f13 (a, gs) hp

theorem objective_setUsed_lt {inp : OptInput} {sol : Solution} {t : String}
    {gs : List (String × String × ℚ)} {x : ℚ}
    (hmem : (t, gs) ∈ setups_per_gpu inp) (hcost : 0 < dget inp.gpu_cost t 0)
    (hx : x < sol.used_gpu t) :
    objective inp (setUsed sol t x) < objective inp sol := by
  unfold objective
  have hdelta : sumDelta inp (setUsed sol t x) = sumDelta inp sol := rfl
  rw [hdelta]
  apply add_lt_add_right
  apply List.sum_lt_sum
  · intro p _
    obtain ⟨a, gs'⟩ := p
    by_cases h : a = t
    · subst h
      simp only [setUsed, if_pos rfl]
      exact mul_le_mul_of_nonneg_left (le_of_lt hx) (le_of_lt hcost)
    · simp only [setUsed, if_neg h, le_refl]
  · refine ⟨(t, gs), hmem, ?_⟩
    simp only [setUsed, if_pos rfl]
    exact mul_lt_mul_of_pos_left hx hcost

theorem dlookup_isSome_of_mem {κ α : Type} [DecidableEq κ] {l : List (κ × α)} {k : κ}
    (h : k ∈ l.map Prod.fst) : ∃ v, dlookup l k = some v := by
  induction l with
  | nil => simp at h
  | cons p rest ih =>
    obtain ⟨a, b⟩ := p
    by_cases ha : a = k
    · exact ⟨b, by rw [dlookup, if_pos ha]⟩
    · rw [List.map_cons, List.mem_cons] at h
      rcases h with h | h
      · exact absurd h.symm ha
      · rcases ih h with ⟨v, hv⟩
        exact ⟨v, by rw [dlookup, if_neg ha, hv]⟩

theorem dlookup_instancesPerModel (inp : OptInput) (sol : Solution) (m : String) :
    dlookup (instancesPerModel inp sol) m = (dlookup inp.variants m).map
      (fun s => OptimizationResultsInstances.mk (s.map (fun q =>
        (q.1, InstancesData.mk (round (sol.eta (m, q.1))) q.2.gpu_type q.2.gpu_number)))) := by
  unfold instancesPerModel
  induction inp.variants with
  | nil => rfl
  | cons p rest ih =>
    obtain ⟨a, b⟩ := p
    by_cases ha : a = m
    · subst ha
      simp [dlookup]
    · simp [dlookup, ha, ih]

theorem dlookup_inner (sol : Solution) (m : String) (s : List (String × VariantData))
    (v : String) :
    dlookup (s.map (fun q =>
      (q.1, InstancesData.mk (round (sol.eta (m, q.1))) q.2.gpu_type q.2.gpu_number))) v =
    (dlookup s v).map (fun vd =>
      InstancesData.mk (round (sol.eta (m, v))) vd.gpu_type vd.gpu_number) :=
  dlookup_map s
    (fun v' vd => InstancesData.mk (round (sol.eta (m, v'))) vd.gpu_type vd.gpu_number) v

theorem resultReplicas_assemble {inp : OptInput} {sol : Solution} {m : String}
    {s : List (String × VariantData)} (hm : dlookup inp.variants m = some s)
    {v : String} (hv : v ∈ s.map Prod.fst) :
    resultReplicas (assembleSolved inp sol) m v = round (sol.eta (m, v)) := by
  have hms : (assembleSolved inp sol).models_data = instancesPerModel inp sol := rfl
  rw [resultReplicas, hms, dlookup_instancesPerModel, hm]
  rcases dlookup_isSome_of_mem hv with ⟨vd, hvd⟩
  simp only [Option.map_some', Option.some_bind]
  rw [dlookup_inner, hvd]
  rfl

/-- C5: calling the optimizer with `deployed_instances` left at its default
`None` raises `AttributeError` inside the `min_instances_ct` comprehension
(line 111 calls `.get` on `None`) as soon as some model is not in
`scale_to_zero`; it does not return an `OptimizationResult`.  Evaluated here
at the concrete input `inp5` (one model, not scale-to-zero-exempt,
`deployed_instances = None`, `change_penalty = 0`). -/
theorem C5_default_deployed_raises :
    get_optimal_gpu_allocation inp5 none =
      Except.error "AttributeError: NoneType object has no attribute get" := rfl

/-- C9: when the solver reports no solution (and the encoder itself did not
raise), `get_optimal_gpu_allocation` returns normally with an
`OptimizationResult` whose `gpu_after_allocation`, `models_data` and all
four diagnostic collections are empty (lines 254-263). -/
theorem C9_no_solution_empty (inp : OptInput) (L : List (String × List String))
    (henc : minInstanceModelsE inp = Except.ok L)
    (hdep : 0 < inp.change_penalty → inp.deployed_instances ≠ none) :
    get_optimal_gpu_allocation inp none = Except.ok emptyResult ∧
      emptyResult.gpu_after_allocation = [] ∧ emptyResult.models_data = [] ∧
      emptyResult.impossible_models = [] ∧ emptyResult.strange_models = [] ∧
      emptyResult.missing_models = [] ∧ emptyResult.impossible_instances = [] := by
  refine ⟨?_, rfl, rfl, rfl, rfl, rfl, rfl⟩
  unfold get_optimal_gpu_allocation
  rw [henc]
  by_cases hcp : 0 < inp.change_penalty
  · cases hd : inp.deployed_instances with
    | none => exact absurd hd (hdep hcp)
    | some d => simp [hcp, Bind.bind, Except.bind, pure, Except.pure]
  · simp [hcp, Bind.bind, Except.bind, pure, Except.pure]

theorem C9_witness : get_optimal_gpu_allocation inpW none = Except.ok emptyResult :=
  (C9_no_solution_empty inpW [("m", ["v"])] rfl
    (fun _ h => by rw [inpW] at h; exact Option.noConfusion h)).1

/-- C1: on every call that returns a non-empty plan, for every model with an
entry in `required_rates`, the served rate
`Σ_v max_service_rate(m, v) · replicas(m, v)` computed from the replica
counts recorded in the result is at least the required rate
(`service_rate_ct`, lines 116-129). -/
theorem C1_demand_satisfaction (inp : OptInput) (sol : Solution)
    (res : OptimizationResult) (m : String) (rate : ℚ)
    (hok : get_optimal_gpu_allocation inp (some sol) = Except.ok res)
    (hf : Feasible inp sol) (hm : dlookup inp.required_rates m = some rate) :
    rate ≤ ((dget inp.variants m []).map
      (fun q => q.2.max_service_rate * ((resultReplicas res m q.1 : ℤ) : ℚ))).sum := by
  obtain rfl := get_optimal_ok hok
  have hct : (rate, (dget inp.variants m []).map
      (fun q => (q.2.max_service_rate, (m, q.1)))) ∈ serviceCts inp := by
    unfold serviceCts
    exact List.mem_map.2 ⟨(m, rate), dlookup_mem hm, rfl⟩
  have hs := hf.service_rate_sat _ hct
  rw [lsum, List.map_map] at hs
  refine le_trans hs (le_of_eq ?_)
  cases hlk : dlookup inp.variants m with
  | none =>
    rw [dget, hlk]
    rfl
  | some s =>
    rw [dget_of_dlookup [] hlk]
    apply congrArg List.sum
    apply List.map_congr_left
    intro q hq
    simp only [Function.comp]
    congr 1
    rw [resultReplicas_assemble hlk (List.mem_map.2 ⟨q, hq, rfl⟩)]
    exact (round_cast_eq_self (hf.eta_integral _ (mem_etaKeys (dlookup_mem hlk) hq))).symm

theorem C1_witness :
    (1 : ℚ) ≤ ((dget inpW.variants "m" []).map
      (fun q => q.2.max_service_rate *
        ((resultReplicas (assembleSolved inpW solW) "m" q.1 : ℤ) : ℚ))).sum :=
  C1_demand_satisfaction inpW solW (assembleSolved inpW solW) "m" 1 rfl
    (by
      rw [feasible_iff]
      simp [etaKeys, inpW, solW, vdW, maxReplicaCts, minReplicaCts, sos1Groups,
        minOneList, minInstanceModelsE, currentTotal, serviceCts, lsum, eligSetups,
        setups_per_gpu, dget, dlookup, deltaKeys, changeCts, consump,
        Except.map, Except.toOption])
    rfl

/-- C10: on every call that returns a non-empty plan, `models_data` has
exactly the (model, variant) structure of the input catalog — the model keys
in catalog order, and per model exactly the catalog's variant ids, including
those with zero replicas — and each entry is
`InstancesData(round(eta value), gpu_type, gpu_number)` with the two static
attributes copied verbatim from the input variant (lines 225-233). -/
theorem C10_models_data (inp : OptInput) (sol : Solution) (res : OptimizationResult)
    (hok : get_optimal_gpu_allocation inp (some sol) = Except.ok res) :
    res.models_data.map Prod.fst = inp.variants.map Prod.fst ∧
    ∀ m s, dlookup inp.variants m = some s →
      ∃ ri, dlookup res.models_data m = some ri ∧
        ri.requiredInstances.map Prod.fst = s.map Prod.fst ∧
        ∀ v vd, dlookup s v = some vd →
          dlookup ri.requiredInstances v =
            some (InstancesData.mk (round (sol.eta (m, v))) vd.gpu_type vd.gpu_number) := by
  obtain rfl := get_optimal_ok hok
  have hms : (assembleSolved inp sol).models_data = instancesPerModel inp sol := rfl
  constructor
  · rw [hms, instancesPerModel, List.map_map]
    rfl
  · intro m s hm
    refine ⟨OptimizationResultsInstances.mk (s.map (fun q =>
      (q.1, InstancesData.mk (round (sol.eta (m, q.1))) q.2.gpu_type q.2.gpu_number))),
      ?_, ?_, ?_⟩
    · rw [hms, dlookup_instancesPerModel, hm]
      rfl
    · rw [List.map_map]
      rfl
    · intro v vd hvd
      rw [dlookup_inner, hvd]
      rfl

theorem C10_witness :
    (assembleSolved inpW solW).models_data.map Prod.fst = inpW.variants.map Prod.fst :=
  (C10_models_data inpW solW (assembleSolved inpW solW) rfl).1

/-- C2: the `min_instances_ct` constraint `Σ_v eta[m, v] ≥ 1`
(lines 107-113) is present exactly for the catalog models that are not in
`scale_to_zero` and whose current replica total in `deployed_instances` is
strictly positive; consequently every such model totals at least one replica
in any returned non-empty plan, and a model that is neither
scale-to-zero-exempt nor currently deployed gets no such constraint. -/
theorem C2_minimum_one (inp : OptInput) (dep : List (String × List (String × ℤ)))
    (sol : Solution) (res : OptimizationResult)
    (hdep : inp.deployed_instances = some dep)
    (hok : get_optimal_gpu_allocation inp (some sol) = Except.ok res)
    (hf : Feasible inp sol) :
    (∀ m vs, (m, vs) ∈ minOneList inp ↔
        ∃ s, (m, s) ∈ inp.variants ∧ vs = s.map Prod.fst ∧
          m ∉ inp.scale_to_zero ∧ 0 < currentTotal dep m) ∧
    (∀ m s, dlookup inp.variants m = some s → m ∉ inp.scale_to_zero →
        0 < currentTotal dep m →
        1 ≤ (s.map (fun q => resultReplicas res m q.1)).sum) ∧
    (∀ m, m ∉ inp.scale_to_zero → currentTotal dep m = 0 →
        ∀ vs, (m, vs) ∉ minOneList inp) := by
  obtain rfl := get_optimal_ok hok
  refine ⟨fun m vs => minOneList_char hdep, ?_, ?_⟩
  · intro m s hm h1 h2
    have hmem : (m, s.map Prod.fst) ∈ minOneList inp :=
      (minOneList_char hdep).2 ⟨s, dlookup_mem hm, rfl, h1, h2⟩
    have h9 := hf.min_instances_sat (m, s.map Prod.fst) hmem
    rw [List.map_map] at h9
    have hsum : (((s.map (fun q =>
        resultReplicas (assembleSolved inp sol) m q.1)).sum : ℤ) : ℚ)
        = (s.map ((fun v => sol.eta (m, v)) ∘ Prod.fst)).sum := by
      rw [Int.cast_list_sum, List.map_map]
      apply congrArg List.sum
      apply List.map_congr_left
      intro q hq
      simp only [Function.comp]
      rw [resultReplicas_assemble hm (List.mem_map.2 ⟨q, hq, rfl⟩)]
      exact round_cast_eq_self (hf.eta_integral _ (mem_etaKeys (dlookup_mem hm) hq))
    rw [← hsum] at h9
    exact_mod_cast h9
  · intro m h1 h2 vs hmem
    rcases (minOneList_char hdep).1 hmem with ⟨s, _, _, _, hpos⟩
    rw [h2] at hpos
    exact lt_irrefl 0 hpos

theorem C2_witness :
    1 ≤ (([("v", vdW)]).map
      (fun q => resultReplicas (assembleSolved inpW solW) "m" q.1)).sum :=
  (C2_minimum_one inpW [("m", [("v", 1)])] solW (assembleSolved inpW solW)
    rfl rfl
    (by
      rw [feasible_iff]
      simp [etaKeys, inpW, solW, vdW, maxReplicaCts, minReplicaCts, sos1Groups,
        minOneList, minInstanceModelsE, currentTotal, serviceCts, lsum, eligSetups,
        setups_per_gpu, dget, dlookup, deltaKeys, changeCts, consump,
        Except.map, Except.toOption])).2.1
    "m" [("v", vdW)] rfl (fun h => by exact absurd h (List.not_mem_nil "m")) (by decide)

/-- C3: when `change_penalty > 0`, the continuous `delta` variables are
declared exactly for every variant of every model keyed in
`deployed_instances` (lines 163-170), and for every (variant, count) entry
of `deployed_instances` the encoder adds `delta ≥ eta − current` when
`Δrate(m) ≥ 0` and `delta ≥ current − eta` otherwise, where
`Δrate(m) = Σ_v current[m][v] · max_service_rate(m, v) −
required_rates.get(m, 0)` (lines 173-193); conversely every
`instance_change_ct` constraint arises this way. -/
theorem C3_change_penalty_encoding (inp : OptInput)
    (dep : List (String × List (String × ℤ)))
    (hcp : 0 < inp.change_penalty) (hdep : inp.deployed_instances = some dep) :
    (∀ m v, (m, v) ∈ deltaKeys inp ↔
        m ∈ dep.map Prod.fst ∧ v ∈ (dget inp.variants m []).map Prod.fst) ∧
    (∀ m inst, (m, inst) ∈ dep → ∀ v n, (v, n) ∈ inst →
        (if 0 ≤ ((inst.map (fun q => (q.2 : ℚ) * msr inp m q.1)).sum)
              - dget inp.required_rates m 0
         then ChangeCt.growth m v n else ChangeCt.shrink m v n) ∈ changeCts inp) ∧
    (∀ c ∈ changeCts inp, ∃ m inst, (m, inst) ∈ dep ∧ ∃ v n, (v, n) ∈ inst ∧
        c = if 0 ≤ deltaRate inp m inst then ChangeCt.growth m v n
            else ChangeCt.shrink m v n) := by
  have hck : changeCts inp = dep.flatMap (fun p => p.2.map (fun q =>
      if 0 ≤ deltaRate inp p.1 p.2 then ChangeCt.growth p.1 q.1 q.2
      else ChangeCt.shrink p.1 q.1 q.2)) := by
    unfold changeCts
    simp only [hdep]
    rw [if_pos hcp]
  have hdk : deltaKeys inp = dep.flatMap (fun p =>
      (dget inp.variants p.1 []).map (fun q => (p.1, q.1))) := by
    unfold deltaKeys
    rw [hdep]
  refine ⟨?_, ?_, ?_⟩
  · intro m v
    rw [hdk]
    constructor
    · intro h
      rcases List.mem_flatMap.1 h with ⟨p, hp, hx⟩
      rcases List.mem_map.1 hx with ⟨q, hq, he⟩
      have h1 : p.1 = m := congrArg Prod.fst he
      have h2 : q.1 = v := congrArg Prod.snd he
      subst h1
      subst h2
      exact ⟨List.mem_map.2 ⟨p, hp, rfl⟩, List.mem_map.2 ⟨q, hq, rfl⟩⟩
    · rintro ⟨hm, hv⟩
      rcases List.mem_map.1 hm with ⟨p, hp, hp1⟩
      rcases List.mem_map.1 hv with ⟨q, hq, hq1⟩
      refine List.mem_flatMap.2 ⟨p, hp, List.mem_map.2 ⟨q, ?_, ?_⟩⟩
      · rw [hp1]
        exact hq
      · rw [hp1, hq1]
  · intro m inst hmi v n hvn
    rw [hck]
    exact List.mem_flatMap.2 ⟨(m, inst), hmi, List.mem_map.2 ⟨(v, n), hvn, rfl⟩⟩
  · intro c hc
    rw [hck] at hc
    rcases List.mem_flatMap.1 hc with ⟨p, hp, hx⟩
    rcases List.mem_map.1 hx with ⟨q, hq, he⟩
    refine ⟨p.1, p.2, by rw [Prod.mk.eta]; exact hp, q.1, q.2,
      by rw [Prod.mk.eta]; exact hq, he.symm⟩

theorem C3_witness : ChangeCt.growth "m" "v" 1 ∈ changeCts inpP := by
  have h := (C3_change_penalty_encoding inpP [("m", [("v", 1)])]
      (by norm_num [inpP, inpW]) rfl).2.1
    "m" [("v", 1)] (List.mem_singleton.2 rfl) "v" 1 (List.mem_singleton.2 rfl)
  rwa [if_pos (by norm_num [msr, inpP, inpW, vdW, dget, dlookup])] at h

/-- C7 counterexample: the SOS1 groups are added only for models in
`required_rates` (line 102 iterates `required_rates.keys()`), so with
`homogeneous = true` a model absent from `required_rates` is not restricted:
on `inp7` the optimal solution `sol7` gives model `m2` a strictly positive
replica count on both of its two variants in the returned plan, refuting
the claim that at most one variant per model is active for every model. -/
theorem C7_counterexample :
    inp7.homogeneous = true ∧ IsOptimal inp7 sol7 ∧
    get_optimal_gpu_allocation inp7 (some sol7) = Except.ok (assembleSolved inp7 sol7) ∧
    dlookup inp7.required_rates "m2" = none ∧
    resultReplicas (assembleSolved inp7 sol7) "m2" "v1" = 1 ∧
    resultReplicas (assembleSolved inp7 sol7) "m2" "v2" = 1 := by
  refine ⟨rfl, ⟨?_, ?_⟩, rfl, rfl, ?_, ?_⟩
  · rw [feasible_iff]
    simp [etaKeys, inp7, sol7, vdW, maxReplicaCts, minReplicaCts, sos1Groups,
      minOneList, minInstanceModelsE, currentTotal, serviceCts, lsum, eligSetups,
      setups_per_gpu, dget, dlookup, deltaKeys, changeCts, consump,
      Except.map, Except.toOption]
    norm_num
  · intro sol' _
    simp [objective, setups_per_gpu, eligSetups, inp7, vdW, dget, dlookup,
      sumDelta, max_gpu_cost, sol7]
  · simp [resultReplicas, assembleSolved, instancesPerModel, inp7, sol7, dlookup, vdW]
  · simp [resultReplicas, assembleSolved, instancesPerModel, inp7, sol7, dlookup, vdW]

/-- C7 amended: when `homogeneous = true`, one SOS1 per model of
`required_rates` is added over that model's `eta` variables (lines 97-103),
so in every returned non-empty plan each model that appears in
`required_rates` has at most one variant with a strictly positive replica
count; models absent from `required_rates` are not constrained. -/
theorem C7_amended (inp : OptInput) (sol : Solution) (res : OptimizationResult)
    (hok : get_optimal_gpu_allocation inp (some sol) = Except.ok res)
    (hf : Feasible inp sol) (hhom : inp.homogeneous = true)
    (m : String) (rate : ℚ) (hm : dlookup inp.required_rates m = some rate)
    (s : List (String × VariantData)) (hs : dlookup inp.variants m = some s)
    (v v' : String) (hv : v ∈ s.map Prod.fst) (hv' : v' ∈ s.map Prod.fst)
    (hpos : 0 < resultReplicas res m v) (hpos' : 0 < resultReplicas res m v') :
    v = v' := by
  obtain rfl := get_optimal_ok hok
  have hg : ((dget inp.variants m []).map (fun q => (m, q.1))) ∈ sos1Groups inp := by
    unfold sos1Groups
    rw [hhom]
    exact List.mem_map.2 ⟨(m, rate), dlookup_mem hm, rfl⟩
  have h8 := hf.sos1_sat _ hg
  rw [dget_of_dlookup [] hs] at h8
  have hmv : (m, v) ∈ s.map (fun q => (m, q.1)) := by
    rcases List.mem_map.1 hv with ⟨q, hq, rfl⟩
    exact List.mem_map.2 ⟨q, hq, rfl⟩
  have hmv' : (m, v') ∈ s.map (fun q => (m, q.1)) := by
    rcases List.mem_map.1 hv' with ⟨q, hq, rfl⟩
    exact List.mem_map.2 ⟨q, hq, rfl⟩
  have hne : sol.eta (m, v) ≠ 0 := by
    intro h0
    rw [resultReplicas_assemble hs hv, h0] at hpos
    norm_num at hpos
  have hne' : sol.eta (m, v') ≠ 0 := by
    intro h0
    rw [resultReplicas_assemble hs hv', h0] at hpos'
    norm_num at hpos'
  exact congrArg Prod.snd (h8 (m, v) hmv (m, v') hmv' hne hne')

theorem C7_witness :
    0 < resultReplicas (assembleSolved inpH solH) "m" "v1" ∧ ("v1" : String) = "v1" := by
  have hpos : 0 < resultReplicas (assembleSolved inpH solH) "m" "v1" := by
    simp [resultReplicas, assembleSolved, instancesPerModel, inpH, solH, dlookup, vdW]
  refine ⟨hpos, C7_amended inpH solH (assembleSolved inpH solH) rfl ?_ rfl
    "m" 1 rfl _ rfl "v1" "v1" (by simp) (by simp) hpos hpos⟩
  rw [feasible_iff]
  simp [etaKeys, inpH, solH, vdW, maxReplicaCts, minReplicaCts, sos1Groups,
    minOneList, minInstanceModelsE, currentTotal, serviceCts, lsum, eligSetups,
    setups_per_gpu, dget, dlookup, deltaKeys, changeCts, consump,
    Except.map, Except.toOption]
  intro a b _ a' b' _ ha hb ha' hb'
  subst ha
  subst hb
  subst ha'
  subst hb'
  exact ⟨rfl, rfl⟩

/-- C4 counterexample: on `inp4`, type `B` is in `gpu_limits` and matches no
variant while type `A` does have an eligible variant; on the optimal
solution `sol4` the returned `gpu_after_allocation` has no entry for `B` at
all — the pass-through of unmatched supply types happens only in the fully
degenerate branch (line 243 `if not setups_per_gpu.keys()`), refuting the
claim that it also holds when some other type has eligible variants. -/
theorem C4_counterexample :
    IsOptimal inp4 sol4 ∧
    get_optimal_gpu_allocation inp4 (some sol4) = Except.ok (assembleSolved inp4 sol4) ∧
    dlookup inp4.gpu_limits "B" = some 2 ∧
    (inp4.variants.all (fun p => p.2.all (fun q => !(q.2.gpu_type == "B")))) = true ∧
    dlookup (assembleSolved inp4 sol4).gpu_after_allocation "B" = none := by
  refine ⟨⟨?_, ?_⟩, rfl, rfl, rfl, rfl⟩
  · rw [feasible_iff]
    simp [etaKeys, inp4, sol4, vdW, maxReplicaCts, minReplicaCts, sos1Groups,
      minOneList, minInstanceModelsE, currentTotal, serviceCts, lsum, eligSetups,
      setups_per_gpu, dget, dlookup, deltaKeys, changeCts, consump,
      Except.map, Except.toOption]
  · intro sol' _
    simp [objective, setups_per_gpu, eligSetups, inp4, vdW, dget, dlookup,
      sumDelta, max_gpu_cost, sol4]

/-- C4 amended: an accelerator type of `gpu_limits` that matches no
variant's `gpu_type` carries its full supply into `gpu_after_allocation`
only in the degenerate case in which no type has any eligible variant
(empty `setups_per_gpu`); when some type does have an eligible variant,
every unmatched type is absent from `gpu_after_allocation`
(lines 235 and 243-244). -/
theorem C4_amended (inp : OptInput) (sol : Solution) (res : OptimizationResult)
    (hok : get_optimal_gpu_allocation inp (some sol) = Except.ok res) :
    ((setups_per_gpu inp).isEmpty = true →
      ∀ t lim, dlookup inp.gpu_limits t = some lim →
        dlookup res.gpu_after_allocation t = some lim) ∧
    ((setups_per_gpu inp).isEmpty = false →
      ∀ t, (∀ p ∈ inp.variants, ∀ q ∈ p.2, q.2.gpu_type ≠ t) →
        dlookup res.gpu_after_allocation t = none) := by
  obtain rfl := get_optimal_ok hok
  have hga : (assembleSolved inp sol).gpu_after_allocation = gpuAfter inp sol := rfl
  constructor
  · intro hemp t lim hlim
    rw [hga, gpuAfter, if_pos hemp]
    rw [dlookup_map inp.gpu_limits (fun _ lim' => round ((lim' : ℚ))), hlim]
    simp [round_intCast]
  · intro hne t hvar
    rw [hga, gpuAfter, if_neg (by simp [hne])]
    apply dlookup_eq_none
    intro hmem
    rw [List.map_map] at hmem
    have hmem' : t ∈ (setups_per_gpu inp).map Prod.fst := by
      simpa [Function.comp] using hmem
    rcases List.mem_map.1 hmem' with ⟨p, hp, hp1⟩
    have hsp := setups_per_gpu_mem (show (p.1, p.2) ∈ setups_per_gpu inp by
      rw [Prod.mk.eta]; exact hp)
    rcases List.exists_mem_of_ne_nil _ hsp.2.1 with ⟨x, hx⟩
    rw [hsp.1] at hx
    rcases eligSetups_mem hx with ⟨pp, hpp, q, hq, _, hty⟩
    rw [hp1] at hty
    exact hvar pp hpp q hq hty

theorem C4_witness :
    dlookup (assembleSolved inpD solZero).gpu_after_allocation "B" = some 2 ∧
    dlookup (assembleSolved inpW solW).gpu_after_allocation "B" = none := by
  constructor
  · exact (C4_amended inpD solZero (assembleSolved inpD solZero) rfl).1 rfl "B" 2 rfl
  · exact (C4_amended inpW solW (assembleSolved inpW solW) rfl).2 rfl "B" (by decide)

/-- C8: the minimized objective (lines 209-214) coincides with the spec's
formula `Σ_t cost[t] · used_gpu[t] + change_penalty · max_gpu_cost ·
Σ delta[m, v]`, where the first sum ranges over exactly the accelerator
types with at least one eligible variant, a type with eligible variants but
no cost entry contributes cost 0, and `max_gpu_cost` is the maximum cost of
the eligible types (0 when there are none). -/
theorem C8_objective (inp : OptInput) (sol : Solution)
    (hcp : 0 ≤ inp.change_penalty) :
    objective inp sol = specObjective inp sol := by
  unfold objective specObjective sumDelta max_gpu_cost specMaxGpuCost
  rw [setups_per_gpu_eq, List.map_map, List.map_map]
  have hfun : ((fun p : String × List (String × String × ℚ) =>
      dget inp.gpu_cost p.1 0 * sol.used_gpu p.1) ∘
      (fun p : String × ℤ => (p.1, eligSetups inp p.1))) =
      (fun p : String × ℤ => dget inp.gpu_cost p.1 0 * sol.used_gpu p.1) := rfl
  have hfun2 : ((fun p : String × List (String × String × ℚ) =>
      dget inp.gpu_cost p.1 0) ∘
      (fun p : String × ℤ => (p.1, eligSetups inp p.1))) =
      (fun p : String × ℤ => dget inp.gpu_cost p.1 0) := rfl
  rw [hfun, hfun2]
  rcases lt_or_eq_of_le hcp with h | h
  · rw [if_pos h]
    ring
  · rw [if_neg (by rw [← h]; exact lt_irrefl 0)]
    rw [← h]
    ring

theorem C8_witness : objective inpP solW = specObjective inpP solW :=
  C8_objective inpP solW (by norm_num [inpP, inpW])

/-- C6 counterexample: with an empty cost map every feasible solution is
optimal (the objective is identically 0), so an optimal solution may return
`used_gpu A = 7` while only 1 accelerator is consumed; on `inp6`/`sol6` the
reported `gpu_after_allocation A` is `5 − 7 = −2`, which differs from
`supply − ⌈consumed⌉ = 5 − 1 = 4` and is negative, refuting both parts of
the claim. -/
theorem C6_counterexample :
    IsOptimal inp6 sol6 ∧
    get_optimal_gpu_allocation inp6 (some sol6) = Except.ok (assembleSolved inp6 sol6) ∧
    dlookup (assembleSolved inp6 sol6).gpu_after_allocation "A" = some (-2) ∧
    dlookup inp6.gpu_limits "A" = some 5 ∧
    resultConsump sol6 (eligSetups inp6 "A") = 1 ∧
    (-2 : ℤ) ≠ 5 - ⌈(1 : ℚ)⌉ ∧ ¬ (0 ≤ (-2 : ℤ)) := by
  refine ⟨⟨?_, ?_⟩, rfl, ?_, rfl, ?_, by rw [Int.ceil_one]; decide, by decide⟩
  · rw [feasible_iff]
    simp [etaKeys, inp6, sol6, vdW, maxReplicaCts, minReplicaCts, sos1Groups,
      minOneList, minInstanceModelsE, currentTotal, serviceCts, lsum, eligSetups,
      setups_per_gpu, dget, dlookup, deltaKeys, changeCts, consump,
      Except.map, Except.toOption]
  · intro sol' _
    simp [objective, setups_per_gpu, eligSetups, inp6, vdW, dget, dlookup,
      sumDelta, max_gpu_cost, sol6]
  · simp [assembleSolved, gpuAfter, setups_per_gpu, eligSetups, inp6, sol6, vdW,
      dget, dlookup]
  · simp [resultConsump, eligSetups, inp6, sol6, vdW]

/-- C6 amended: for every accelerator type `t` that has eligible variants,
is assigned a strictly positive cost by `gpu_cost`, and under a well-formed
catalog (non-negative `gpu_number`), an optimal returned plan reports
`gpu_after_allocation[t] = gpu_limits[t] − ⌈Σ accelerator_count ·
replicas⌉`, and this value is non-negative; with zero cost the objective
does not force `used_gpu[t]` tight (see the counterexample). -/
theorem C6_amended (inp : OptInput) (sol : Solution) (res : OptimizationResult)
    (t : String) (gs : List (String × String × ℚ)) (lim : ℤ)
    (hok : get_optimal_gpu_allocation inp (some sol) = Except.ok res)
    (hnn : ∀ p ∈ inp.variants, ∀ q ∈ p.2, 0 ≤ q.2.gpu_number)
    (hopt : IsOptimal inp sol)
    (hgs : dlookup (setups_per_gpu inp) t = some gs)
    (hlim : dlookup inp.gpu_limits t = some lim)
    (hcost : 0 < dget inp.gpu_cost t 0) :
    dlookup res.gpu_after_allocation t = some (lim - ⌈resultConsump sol gs⌉) ∧
      0 ≤ lim - ⌈resultConsump sol gs⌉ := by
  obtain rfl := get_optimal_ok hok
  obtain ⟨hf, hmin⟩ := hopt
  have hmem := dlookup_mem hgs
  obtain ⟨hgs_eq, hne, -⟩ := setups_per_gpu_mem hmem
  have hrc : resultConsump sol gs = consump sol gs :=
    resultConsump_eq hgs_eq hf.eta_integral
  have hu_den : (sol.used_gpu t).den = 1 := hf.used_integral (t, gs) hmem
  have hu_eq : (((sol.used_gpu t).num : ℤ) : ℚ) = sol.used_gpu t :=
    (Rat.den_eq_one_iff _).1 hu_den
  have hge : ⌈consump sol gs⌉ ≤ (sol.used_gpu t).num := by
    rw [Int.ceil_le, hu_eq]
    exact hf.int_gpu_sat (t, gs) hmem
  have hcnn : 0 ≤ consump sol gs := consump_nonneg hgs_eq hnn hf.eta_nonneg
  have hle : (sol.used_gpu t).num ≤ ⌈consump sol gs⌉ := by
    by_contra hlt
    push_neg at hlt
    have hx0 : (0 : ℚ) ≤ ((⌈consump sol gs⌉ : ℤ) : ℚ) := by
      exact_mod_cast Int.ceil_nonneg hcnn
    have hfeas : Feasible inp (setUsed sol t ((⌈consump sol gs⌉ : ℤ) : ℚ)) := by
      apply feasible_setUsed hf hx0 (Rat.den_intCast _)
      intro gs' hmem'
      rw [(setups_per_gpu_mem hmem').1, ← hgs_eq]
      exact Int.le_ceil _
    have hltq : ((⌈consump sol gs⌉ : ℤ) : ℚ) < sol.used_gpu t := by
      rw [← hu_eq]
      exact_mod_cast hlt
    exact absurd (hmin _ hfeas) (not_le.2 (objective_setUsed_lt hmem hcost hltq))
  have hn : (sol.used_gpu t).num = ⌈consump sol gs⌉ := le_antisymm hle hge
  have hnotempty : ¬ (setups_per_gpu inp).isEmpty = true := by
    intro he
    rw [List.isEmpty_iff] at he
    rw [he] at hmem
    exact List.not_mem_nil _ hmem
  have hga : (assembleSolved inp sol).gpu_after_allocation = gpuAfter inp sol := rfl
  have hval : round (((dget inp.gpu_limits t 0 : ℤ) : ℚ) - sol.used_gpu t)
      = lim - ⌈resultConsump sol gs⌉ := by
    rw [dget_of_dlookup 0 hlim, ← hu_eq, hrc, ← hn]
    rw [show ((lim : ℤ) : ℚ) - (((sol.used_gpu t).num : ℤ) : ℚ)
      = (((lim - (sol.used_gpu t).num : ℤ)) : ℚ) by push_cast; ring]
    rw [round_intCast]
  refine ⟨?_, ?_⟩
  · rw [hga, gpuAfter, if_neg hnotempty]
    rw [dlookup_map (setups_per_gpu inp)
      (fun t' _ => round (((dget inp.gpu_limits t' 0 : ℤ) : ℚ) - sol.used_gpu t')), hgs]
    simp only [Option.map_some']
    rw [hval]
  · rw [hrc, sub_nonneg]
    have hlimit := hf.gpu_limit_sat (t, gs) hmem
    rw [dget_of_dlookup 0 hlim] at hlimit
    exact Int.ceil_le.2 hlimit

theorem C6_witness :
    dlookup (assembleSolved inpW solW).gpu_after_allocation "A"
      = some (5 - ⌈resultConsump solW (eligSetups inpW "A")⌉) ∧
    0 ≤ 5 - ⌈resultConsump solW (eligSetups inpW "A")⌉ := by
  refine C6_amended inpW solW (assembleSolved inpW solW) "A" (eligSetups inpW "A") 5
    rfl (by simp [inpW, vdW]) ⟨?_, ?_⟩ rfl rfl
    (by norm_num [dget, dlookup, inpW])
  · rw [feasible_iff]
    simp [etaKeys, inpW, solW, vdW, maxReplicaCts, minReplicaCts, sos1Groups,
      minOneList, minInstanceModelsE, currentTotal, serviceCts, lsum, eligSetups,
      setups_per_gpu, dget, dlookup, deltaKeys, changeCts, consump,
      Except.map, Except.toOption]
  · intro sol' h
    have hs := h.service_rate_sat ((1 : ℚ), [((1 : ℚ), ("m", "v"))])
      (by simp [serviceCts, inpW, vdW, dget, dlookup])
    have hg := h.int_gpu_sat ("A", [("m", "v", (1 : ℚ))])
      (by simp [setups_per_gpu, eligSetups, inpW, vdW, dget, dlookup])
    simp only [lsum, consump, List.map_cons, List.map_nil, List.sum_cons,
      List.sum_nil] at hs hg
    simp [objective, setups_per_gpu, eligSetups, inpW, vdW, dget, dlookup,
      sumDelta, max_gpu_cost, solW]
    linarith

end Autoscaler
